import Mathlib

/-!
Shallow embedding of the authentication / token-lifecycle / tenant-scope core
of the multi-tenant school administration backend.

Sources embedded (translated function by function):
- src/src/config/env.js            → `Env`
- src/src/utils/httpErrors.js      → `ErrorBody` and the helper constructors
- src/src/utils/schoolScope.js     → `isSuperadmin`, `resolveSchoolId`
- src/src/middlewares/auth.js      → `authMiddleware`
- src/src/modules/auth/auth.handlers.js → `refresh`, `logout`, `forgotPassword`,
  `verifyOtp`, `resetPassword`, `changePassword` and their helpers.

Modelling conventions:
- Time is a single `Int` timeline; `jsonwebtoken` checks the signature first
  and only then expiry, which `jwtVerify` mirrors.
- A signed JWT is modelled as a `Token` record carrying its claims together
  with the secret it was signed with; `jwt.verify(tok, s)` succeeds iff the
  token was signed with `s` and is unexpired.  A request string that is not a
  decodable JWT at all is modelled by dedicated `garbage` body constructors.
- `crypto.createHash("sha256")` over a high-entropy signed token is modelled
  as an injective function, concretely the identity on `Token` (`hashToken`).
- `bcrypt.hash`/`bcrypt.compare` are modelled by `BcryptHash`: hashing keeps
  the plaintext and a salt, comparison ignores the salt — exactly bcrypt's
  observable behaviour (compare succeeds iff the hash was derived from the
  same plaintext, under any salt).
- Prisma tables are lists; `findUnique`/`findFirst` are `List.find?` (the
  relevant columns carry uniqueness invariants stated as hypotheses where a
  theorem needs them); `updateMany` is a `List.map` guarded by the `where`
  clause; `$transaction` is a single simultaneous record update of the `Db`
  state, matching the all-or-nothing semantics of the source.
- JavaScript string truthiness: an absent or empty (`""`, falsy) value is
  `none`, a present non-empty string is `some s`.
-/

namespace SchoolBackend

/-- Environment configuration (src/src/config/env.js), the fields the auth
core reads.  `NODE_ENV_production` is `true` iff `NODE_ENV === "production"`.
`PASSWORD_RESET_SECRET` is optional; the handlers fall back to the refresh
secret when it is unset. -/
structure Env where
  JWT_ACCESS_SECRET : Nat
  JWT_REFRESH_SECRET : Nat
  PASSWORD_RESET_SECRET : Option Nat
  ACCESS_TOKEN_EXPIRES_IN : Int
  REFRESH_TOKEN_EXPIRES_IN : Int
  PASSWORD_RESET_TOKEN_EXPIRES_IN : Int
  PASSWORD_RESET_OTP_EXPIRES_MINUTES : Int
  NODE_ENV_production : Bool
  deriving DecidableEq, Repr

/-- `const passwordResetSecret = env.PASSWORD_RESET_SECRET || env.JWT_REFRESH_SECRET;`
(auth.handlers.js line 54). -/
def passwordResetSecret (env : Env) : Nat :=
  env.PASSWORD_RESET_SECRET.getD env.JWT_REFRESH_SECRET

/-- JavaScript `(toLowerCase email)Case()`, modelled per character (which is what
it does on the ASCII emails at hand). -/
def toLowerCase (s : String) : String := String.mk (s.data.map Char.toLower)

/-- A bcrypt hash: `bcryptHash plain salt` stands for `bcrypt.hash(plain, rounds)`
with the random salt made explicit. -/
structure BcryptHash where
  plain : String
  salt : Nat
  deriving DecidableEq, Repr

/-- `bcrypt.hash(plain, 10)` with explicit salt. -/
def bcryptHash (plain : String) (salt : Nat) : BcryptHash := ⟨plain, salt⟩

/-- `bcrypt.compare(candidate, hash)`: succeeds iff `hash` was derived from
`candidate` (the salt is recovered from the hash). -/
def bcryptCompare (candidate : String) (h : BcryptHash) : Bool :=
  candidate = h.plain

/-- A signed JWT, modelled as its claims plus the signing secret.
`sub` is `Option String` because arbitrary presented tokens need not carry a
string subject (the handlers check `typeof decoded.sub === "string"`).
`jti` is the unique token id (`crypto.randomUUID()`), present on refresh and
password-reset tokens and absent on access tokens. -/
structure Token where
  sub : Option String
  email : String
  role : String
  schoolId : Option String
  branchId : Option String
  tokenType : String
  jti : Option Nat
  exp : Int
  secret : Nat
  deriving DecidableEq, Repr

/-- Why `jwt.verify` failed: bad signature (wrong secret / not our token) or
`TokenExpiredError`. -/
inductive JwtError
  | invalidSignature
  | tokenExpired
  deriving DecidableEq, Repr

/-- `jwt.verify(token, secret, { algorithms: ["HS256"] })`: the signature is
checked first; an expired but correctly signed token raises
`TokenExpiredError`. -/
def jwtVerify (t : Token) (secret : Nat) (now : Int) : Except JwtError Token :=
  if t.secret ≠ secret then .error .invalidSignature
  else if t.exp ≤ now then .error .tokenExpired
  else .ok t

/-- SHA-256 of the serialized token (`hashToken` in auth.handlers.js).  The
input is a high-entropy signed string, so the hash is modelled as an injective
function — concretely the identity. -/
def hashToken (t : Token) : Token := t

/-- The error responses of src/src/utils/httpErrors.js and the inline
`res.status(s).json({ success: false, error: { code, message } })` bodies:
HTTP status, machine code, human message. -/
structure ErrorBody where
  status : Nat
  code : String
  message : String
  deriving DecidableEq, Repr

/-- `badRequest(message, code)` — status 400 (httpErrors.js). -/
def badRequest (message : String) (code : String) : ErrorBody :=
  ⟨400, code, message⟩

/-- `forbidden(message)` — status 403, code FORBIDDEN (httpErrors.js). -/
def forbidden (message : String) : ErrorBody :=
  ⟨403, "FORBIDDEN", message⟩

/-- The `unauthorized(res, message)` helper of auth.handlers.js:
status 401, code UNAUTHORIZED. -/
def unauthorizedBody (message : String) : ErrorBody :=
  ⟨401, "UNAUTHORIZED", message⟩

/-! ## Tenant scope resolver (src/src/utils/schoolScope.js) -/

/-- The caller identity the authenticator attaches to `req.user` (the JWT
payload); only the fields `resolveSchoolId` reads. -/
structure ReqUser where
  role : String
  schoolId : Option String
  deriving DecidableEq, Repr

/-- `isSuperadmin(req)`: `req.user?.role === "SUPERADMIN"`. -/
def isSuperadmin (user : Option ReqUser) : Bool :=
  match user with
  | some u => u.role = "SUPERADMIN"
  | none => false

/-- Result of `resolveSchoolId`: the resolved school id (`none` = platform-wide
view) or a thrown HTTP error. -/
inductive ScopeResult
  | ok (schoolId : Option String)
  | err (e : ErrorBody)
  deriving DecidableEq, Repr

/-- `resolveSchoolId(req, schoolIdInput, { requireForSuperadmin })`
(schoolScope.js lines 7–30).  `schoolIdInput : Option String` models the JS
argument under string truthiness (absent or empty → `none`). -/
def resolveSchoolId (user : Option ReqUser) (schoolIdInput : Option String)
    (requireForSuperadmin : Bool) : ScopeResult :=
  if isSuperadmin user then
    let schoolId := schoolIdInput
    if requireForSuperadmin ∧ schoolId = none then
      .err (badRequest "schoolId is required for SUPERADMIN" "SCHOOL_CONTEXT_REQUIRED")
    else
      .ok schoolId
  else
    match user.bind (fun u => u.schoolId) with
    | none => .err (forbidden "School context is missing for current user")
    | some own =>
      match schoolIdInput with
      | some requested =>
        if requested ≠ own then .err (forbidden "Cannot access another school's data")
        else .ok (some own)
      | none => .ok (some own)

/-! ## Authenticator middleware (src/src/middlewares/auth.js) -/

/-- Outcome of the `auth` middleware: rejection with a response body, or the
verified payload attached to `req.user`. -/
inductive AuthResult
  | failure (e : ErrorBody)
  | verified (payload : Token)
  deriving DecidableEq, Repr

/-- The `auth(req, res, next)` middleware after token extraction
(auth.js lines 60–133).  `token` is the candidate produced by
`extractAccessToken` (`none` when no header/cookie held one).  On an
access-secret verification failure the middleware first probes the token
against the refresh secret; a verifiable refresh-kind token yields the
dedicated refresh-used-as-access message; otherwise a `TokenExpiredError`
from the access-secret attempt yields TOKEN_EXPIRED; anything else the
generic invalid-token response. -/
def authMiddleware (env : Env) (token : Option Token) (now : Int) : AuthResult :=
  match token with
  | none => .failure (unauthorizedBody "Missing access token")
  | some t =>
    match jwtVerify t env.JWT_ACCESS_SECRET now with
    | .ok payload =>
      if payload.tokenType = "access" ∧ payload.sub.isSome then
        .verified payload
      else
        .failure (unauthorizedBody "Invalid access token")
    | .error e =>
      match jwtVerify t env.JWT_REFRESH_SECRET now with
      | .ok refreshPayload =>
        if refreshPayload.tokenType = "refresh" then
          .failure (unauthorizedBody
            "Refresh token cannot be used here. Send accessToken in Authorization header.")
        else if e = .tokenExpired then
          .failure ⟨401, "TOKEN_EXPIRED", "Access token expired"⟩
        else
          .failure (unauthorizedBody "Invalid or expired access token")
      | .error _ =>
        if e = .tokenExpired then
          .failure ⟨401, "TOKEN_EXPIRED", "Access token expired"⟩
        else
          .failure (unauthorizedBody "Invalid or expired access token")

/-! ## Data model (prisma tables User, RefreshToken, PasswordResetOtp) -/

/-- A `User` row (the fields the auth core reads/writes). -/
structure User where
  id : String
  fullName : String
  email : String
  role : String
  schoolId : Option String
  branchId : Option String
  passwordHash : BcryptHash
  isActive : Bool
  lastLoginAt : Option Int
  deriving DecidableEq, Repr

/-- A `RefreshToken` ledger row: the SHA-256 token hash (unique column), the
owner, expiry, optional revocation timestamp. -/
structure RefreshTokenEntry where
  id : Nat
  userId : String
  tokenHash : Token
  expiresAt : Int
  revokedAt : Option Int
  createdAt : Int
  deriving DecidableEq, Repr

/-- A `PasswordResetOtp` row: keyed by email, bcrypt hash of the 6-digit
code, expiry, optional used-at timestamp. -/
structure PasswordResetOtp where
  id : Nat
  email : String
  otpHash : BcryptHash
  expiresAt : Int
  usedAt : Option Int
  createdAt : Int
  deriving DecidableEq, Repr

/-- The persistent store: the three auth tables plus fresh-id counters for
rows the handlers create. -/
structure Db where
  users : List User
  refreshTokens : List RefreshTokenEntry
  passwordResetOtps : List PasswordResetOtp
  nextRefreshTokenId : Nat
  nextOtpId : Nat
  deriving DecidableEq, Repr

/-! ## Token issuance helpers (auth.handlers.js lines 80–120) -/

/-- `issueAccessToken(buildJwtPayload(user))`: identity claims plus
`tokenType: "access"`, signed with the access secret, short expiry. -/
def issueAccessToken (env : Env) (u : User) (now : Int) : Token :=
  { sub := some u.id, email := u.email, role := u.role, schoolId := u.schoolId,
    branchId := u.branchId, tokenType := "access", jti := none,
    exp := now + env.ACCESS_TOKEN_EXPIRES_IN, secret := env.JWT_ACCESS_SECRET }

/-- `issueRefreshToken(buildJwtPayload(user))`: identity claims plus
`tokenType: "refresh"` and a fresh `jti` (`crypto.randomUUID()`, made an
explicit argument), signed with the refresh secret. -/
def issueRefreshToken (env : Env) (u : User) (now : Int) (freshJti : Nat) : Token :=
  { sub := some u.id, email := u.email, role := u.role, schoolId := u.schoolId,
    branchId := u.branchId, tokenType := "refresh", jti := some freshJti,
    exp := now + env.REFRESH_TOKEN_EXPIRES_IN, secret := env.JWT_REFRESH_SECRET }

/-- `issuePasswordResetToken({ sub, email })`: subject and email claims plus
`tokenType: "password_reset"` and a fresh `jti`, signed with the
password-reset secret (which may be the refresh-secret fallback).  The real
token carries no role/school claims; the unused fields are empty here. -/
def issuePasswordResetToken (env : Env) (u : User) (now : Int) (freshJti : Nat) : Token :=
  { sub := some u.id, email := u.email, role := "", schoolId := none,
    branchId := none, tokenType := "password_reset", jti := some freshJti,
    exp := now + env.PASSWORD_RESET_TOKEN_EXPIRES_IN, secret := passwordResetSecret env }

/-- `tokenExpiryFromJwt(token)`: reads the `exp` claim (always present on the
tokens this code issues). -/
def tokenExpiryFromJwt (t : Token) : Int := t.exp

/-! ## Refresh (auth.handlers.js lines 197–270) -/

/-- The wire value of `req.body.refreshToken` for the refresh endpoint:
absent/empty (zod `min(1)` rejects), a non-JWT string (fails `jwt.verify`
under every secret), or a decodable signed token. -/
inductive RefreshBody
  | missing
  | garbage
  | token (t : Token)
  deriving DecidableEq, Repr

/-- Response of the refresh handler. -/
inductive RefreshResult
  | validationError
  | failure (e : ErrorBody)
  | success (accessToken refreshToken : Token) (user : User)
  deriving DecidableEq, Repr

/-- `refresh(req, res, next)` (auth.handlers.js lines 197–270): verify the
refresh token's signature and claims, look up the ledger row by token hash
(must exist, be unrevoked, unexpired, owned by an active user), then in one
`$transaction` revoke the old row and create a row for the new token. -/
def refresh (env : Env) (db : Db) (now : Int) (freshJti : Nat)
    (body : RefreshBody) : RefreshResult × Db :=
  match body with
  | .missing => (.validationError, db)
  | .garbage => (.failure (unauthorizedBody "Invalid or expired refresh token"), db)
  | .token tk =>
    match jwtVerify tk env.JWT_REFRESH_SECRET now with
    | .error _ => (.failure (unauthorizedBody "Invalid or expired refresh token"), db)
    | .ok decoded =>
      if ¬ (decoded.tokenType = "refresh" ∧ decoded.sub.isSome) then
        (.failure (unauthorizedBody "Invalid refresh token"), db)
      else
        match db.refreshTokens.find? (fun e => e.tokenHash = hashToken tk) with
        | none =>
          (.failure (unauthorizedBody "Refresh token is revoked or invalid"), db)
        | some storedToken =>
          if storedToken.revokedAt.isSome then
            (.failure (unauthorizedBody "Refresh token is revoked or invalid"), db)
          else if storedToken.expiresAt < now then
            (.failure (unauthorizedBody "Refresh token is expired"), db)
          else
            match db.users.find? (fun u => u.id = storedToken.userId) with
            | none => (.failure (unauthorizedBody "User is inactive"), db)
            | some user =>
              if ¬ user.isActive then
                (.failure (unauthorizedBody "User is inactive"), db)
              else
                let nextAccessToken := issueAccessToken env user now
                let nextRefreshToken := issueRefreshToken env user now freshJti
                (.success nextAccessToken nextRefreshToken user,
                 { db with
                   refreshTokens :=
                     (db.refreshTokens.map (fun e =>
                       if e.id = storedToken.id then { e with revokedAt := some now } else e))
                     ++ [{ id := db.nextRefreshTokenId, userId := user.id,
                           tokenHash := hashToken nextRefreshToken,
                           expiresAt := tokenExpiryFromJwt nextRefreshToken,
                           revokedAt := none, createdAt := now }],
                   nextRefreshTokenId := db.nextRefreshTokenId + 1 })

/-! ## Logout (auth.handlers.js lines 272–300) -/

/-- Response of the logout handler. -/
inductive LogoutResult
  | success (message : String)
  deriving DecidableEq, Repr

/-- `logout(req, res, next)`: without a refresh token, immediately succeed;
with one, `updateMany` setting `revokedAt` on rows matching the token hash
whose `revokedAt` is still null, then succeed.  (A string that hashes to no
ledger row behaves like a `Token` absent from the ledger.) -/
def logout (db : Db) (now : Int) (body : Option Token) : LogoutResult × Db :=
  match body with
  | none => (.success "Logged out", db)
  | some refreshToken =>
    (.success "Logged out",
     { db with
       refreshTokens := db.refreshTokens.map (fun e =>
         if e.tokenHash = hashToken refreshToken ∧ e.revokedAt = none then
           { e with revokedAt := some now }
         else e) })

/-! ## Forgot password (auth.handlers.js lines 329–396) -/

/-- The JSON body of a forgot-password response: status, `success`, the
message, and the optional `debugOtp` / `otpExpiresAt` fields (`none` = key
absent from the serialized JSON, as `undefined` values are dropped). -/
structure ForgotPasswordResponse where
  status : Nat
  success : Bool
  message : String
  debugOtp : Option String
  otpExpiresAt : Option Int
  deriving DecidableEq, Repr

/-- Outcome of the forgot-password handler: a JSON response, or the thrown
"Email service is not configured in production" error (serialized by the
error boundary as a 500). -/
inductive ForgotPasswordResult
  | response (r : ForgotPasswordResponse)
  | mailConfigError
  deriving DecidableEq, Repr

/-- `forgotPassword(req, res, next)` (auth.handlers.js lines 329–396).
`otp` is the generated 6-digit code (`crypto.randomInt`), `salt` the bcrypt
salt, both made explicit arguments.  For an unknown or inactive account the
generic success message is returned and nothing is written.  Otherwise one
`$transaction` marks every unused OTP row for the email used and creates the
new row; only then is the mailer consulted (the throw on unconfigured mail in
production happens after the transaction committed). -/
def forgotPassword (env : Env) (db : Db) (now : Int) (email : String)
    (otp : String) (salt : Nat) (mailerConfigured : Bool) :
    ForgotPasswordResult × Db :=
  let normalizedEmail := toLowerCase email
  let genericMessage := "If your account exists, a verification code has been generated"
  match db.users.find? (fun u => u.email = normalizedEmail) with
  | none => (.response ⟨200, true, genericMessage, none, none⟩, db)
  | some user =>
    if ¬ user.isActive then
      (.response ⟨200, true, genericMessage, none, none⟩, db)
    else
      let otpHash := bcryptHash otp salt
      let expiresAt := now + env.PASSWORD_RESET_OTP_EXPIRES_MINUTES * 60 * 1000
      let db' : Db :=
        { db with
          passwordResetOtps :=
            (db.passwordResetOtps.map (fun r =>
              if r.email = normalizedEmail ∧ r.usedAt = none then
                { r with usedAt := some now }
              else r))
            ++ [{ id := db.nextOtpId, email := normalizedEmail, otpHash := otpHash,
                  expiresAt := expiresAt, usedAt := none, createdAt := now }],
          nextOtpId := db.nextOtpId + 1 }
      if ¬ mailerConfigured ∧ env.NODE_ENV_production then
        (.mailConfigError, db')
      else
        (.response ⟨200, true, genericMessage,
          (if env.NODE_ENV_production then none else some otp), some expiresAt⟩, db')

/-! ## Verify OTP (auth.handlers.js lines 398–449) -/

/-- `prisma.passwordResetOtp.findFirst({ where: { email, usedAt: null },
orderBy: { createdAt: "desc" } })`: among unused rows for the email, the one
with the greatest `createdAt` (first such row on ties). -/
def findLatestUnusedOtp (otps : List PasswordResetOtp) (email : String) :
    Option PasswordResetOtp :=
  (otps.filter (fun r => r.email = email ∧ r.usedAt = none)).foldl
    (fun best r =>
      match best with
      | none => some r
      | some b => if r.createdAt > b.createdAt then some r else some b)
    none

/-- Response of the verify-otp handler. -/
inductive VerifyOtpResult
  | validationError
  | invalidOtp (e : ErrorBody)
  | success (resetToken : Token) (expiresIn : Int)
  deriving DecidableEq, Repr

/-- The `invalidOtp(res)` helper: 400, code INVALID_OTP. -/
def invalidOtpBody : ErrorBody :=
  ⟨400, "INVALID_OTP", "Invalid or expired OTP"⟩

/-- `verifyOtp(req, res, next)` (auth.handlers.js lines 398–449): find the
most recent unused OTP row for the email; it must exist, be unexpired, and
bcrypt-match the submitted code; the account must exist and be active; then
mark the row used and issue a password-reset token.  Every failure is the
same generic invalid-OTP response. -/
def verifyOtp (env : Env) (db : Db) (now : Int) (email otp : String)
    (freshJti : Nat) : VerifyOtpResult × Db :=
  let normalizedEmail := toLowerCase email
  match findLatestUnusedOtp db.passwordResetOtps normalizedEmail with
  | none => (.invalidOtp invalidOtpBody, db)
  | some record =>
    if record.expiresAt ≤ now then (.invalidOtp invalidOtpBody, db)
    else if ¬ bcryptCompare otp record.otpHash then (.invalidOtp invalidOtpBody, db)
    else
      match db.users.find? (fun u => u.email = normalizedEmail) with
      | none => (.invalidOtp invalidOtpBody, db)
      | some user =>
        if ¬ user.isActive then (.invalidOtp invalidOtpBody, db)
        else
          (.success (issuePasswordResetToken env user now freshJti)
             env.PASSWORD_RESET_TOKEN_EXPIRES_IN,
           { db with
             passwordResetOtps := db.passwordResetOtps.map (fun r =>
               if r.id = record.id then { r with usedAt := some now } else r) })

/-! ## Reset password (auth.handlers.js lines 451–520) -/

/-- The wire value of `req.body.resetToken`: a non-JWT string or a decodable
signed token (zod only requires a non-empty string). -/
inductive ResetTokenBody
  | garbage
  | token (t : Token)
  deriving DecidableEq, Repr

/-- Response of the reset-password handler. -/
inductive ResetPasswordResult
  | validationError
  | invalidResetToken (e : ErrorBody)
  | success (message : String)
  deriving DecidableEq, Repr

/-- The `invalidResetToken(res)` helper: 401, code INVALID_RESET_TOKEN. -/
def invalidResetTokenBody : ErrorBody :=
  ⟨401, "INVALID_RESET_TOKEN", "Invalid or expired reset token"⟩

/-- `resetPassword(req, res, next)` (auth.handlers.js lines 451–520): verify
the reset token under the password-reset secret, check kind/subject/email
claims, load the subject's account (must be active with matching email), then
in one `$transaction` set the new password hash, revoke every unrevoked
refresh-token row of the user, and mark every unused OTP row for the email
used. -/
def resetPassword (env : Env) (db : Db) (now : Int) (body : ResetTokenBody)
    (newPassword : String) (salt : Nat) : ResetPasswordResult × Db :=
  match body with
  | .garbage => (.invalidResetToken invalidResetTokenBody, db)
  | .token rt =>
    match jwtVerify rt (passwordResetSecret env) now with
    | .error _ => (.invalidResetToken invalidResetTokenBody, db)
    | .ok decoded =>
      match decoded.sub with
      | none => (.invalidResetToken invalidResetTokenBody, db)
      | some subjectId =>
        if decoded.tokenType ≠ "password_reset" then
          (.invalidResetToken invalidResetTokenBody, db)
        else
          match db.users.find? (fun u => u.id = subjectId) with
          | none => (.invalidResetToken invalidResetTokenBody, db)
          | some user =>
            if ¬ (user.isActive ∧ user.email = decoded.email) then
              (.invalidResetToken invalidResetTokenBody, db)
            else
              (.success "Password reset successful. Please login again.",
               { db with
                 users := db.users.map (fun u =>
                   if u.id = user.id then
                     { u with passwordHash := bcryptHash newPassword salt }
                   else u),
                 refreshTokens := db.refreshTokens.map (fun e =>
                   if e.userId = user.id ∧ e.revokedAt = none then
                     { e with revokedAt := some now }
                   else e),
                 passwordResetOtps := db.passwordResetOtps.map (fun r =>
                   if r.email = user.email ∧ r.usedAt = none then
                     { r with usedAt := some now }
                   else r) })

/-! ## Change password (auth.handlers.js lines 522–584) -/

/-- Response of the change-password handler. -/
inductive ChangePasswordResult
  | validationError
  | failure (e : ErrorBody)
  | success (message : String)
  deriving DecidableEq, Repr

/-- `changePassword(req, res, next)` (auth.handlers.js lines 522–584):
`reqUserSub` is `req.user?.sub` from the verified access token.  Verify the
current password, reject a new password equal to the current one, then in one
`$transaction` set the new hash and revoke every unrevoked refresh-token row
of the user. -/
def changePassword (db : Db) (now : Int) (reqUserSub : Option String)
    (currentPassword newPassword : String) (salt : Nat) :
    ChangePasswordResult × Db :=
  match reqUserSub with
  | none => (.failure (unauthorizedBody "Invalid access token payload"), db)
  | some userId =>
    match db.users.find? (fun u => u.id = userId) with
    | none => (.failure (unauthorizedBody "User is inactive"), db)
    | some user =>
      if ¬ user.isActive then
        (.failure (unauthorizedBody "User is inactive"), db)
      else if ¬ bcryptCompare currentPassword user.passwordHash then
        (.failure (unauthorizedBody "Current password is incorrect"), db)
      else if bcryptCompare newPassword user.passwordHash then
        (.failure (badRequest "New password must be different from current password"
          "BAD_REQUEST"), db)
      else
        (.success "Password changed successfully. Please login again.",
         { db with
           users := db.users.map (fun u =>
             if u.id = user.id then
               { u with passwordHash := bcryptHash newPassword salt }
             else u),
           refreshTokens := db.refreshTokens.map (fun e =>
             if e.userId = user.id ∧ e.revokedAt = none then
               { e with revokedAt := some now }
             else e) })

/-! ## Invariants and derived predicates -/

/-- The unique constraint on `RefreshToken.tokenHash`: no two ledger rows
share a token hash. -/
def uniqueTokenHashes (l : List RefreshTokenEntry) : Prop :=
  l.Pairwise (fun a b => a.tokenHash ≠ b.tokenHash)

instance (l : List RefreshTokenEntry) : Decidable (uniqueTokenHashes l) := by
  unfold uniqueTokenHashes
  exact List.instDecidablePairwise l

/-- At most one unused OTP row per email (spec §3 invariant on
`PasswordResetOtp`). -/
def atMostOneUnused (otps : List PasswordResetOtp) (email : String) : Prop :=
  ∀ r1 ∈ otps, ∀ r2 ∈ otps, r1.email = email → r2.email = email →
    r1.usedAt = none → r2.usedAt = none → r1 = r2

instance (otps : List PasswordResetOtp) (email : String) :
    Decidable (atMostOneUnused otps email) := by
  unfold atMostOneUnused
  exact List.decidableBAll _ otps

/-- The forgot-password handler's account test: a user row with this
(normalized) email exists and is active. -/
def hasActiveUserByEmail (db : Db) (normalizedEmail : String) : Bool :=
  match db.users.find? (fun u => u.email = normalizedEmail) with
  | some u => u.isActive
  | none => false

/-- Projection: the HTTP status of a scope-resolver failure, `none` on
success. -/
def ScopeResult.errorStatus : ScopeResult → Option Nat
  | .ok _ => none
  | .err e => some e.status

/-- Every refresh-token row of the given user carries a revocation
timestamp. -/
def allUserTokensRevoked (db : Db) (uid : String) : Prop :=
  ∀ e ∈ db.refreshTokens, e.userId = uid → e.revokedAt.isSome

/-- No refresh call on this store can ever succeed with the given token. -/
def refreshRejectsToken (env : Env) (db : Db) (tk : Token) : Prop :=
  ∀ now2 j2 a r u, (refresh env db now2 j2 (.token tk)).fst ≠ .success a r u

/-! ## Concrete fixtures (used by witnesses and counterexamples) -/

/-- A concrete environment: distinct access/refresh secrets, no dedicated
password-reset secret (refresh-secret fallback), non-production. -/
def env0 : Env :=
  { JWT_ACCESS_SECRET := 0, JWT_REFRESH_SECRET := 1,
    PASSWORD_RESET_SECRET := none,
    ACCESS_TOKEN_EXPIRES_IN := 900, REFRESH_TOKEN_EXPIRES_IN := 604800,
    PASSWORD_RESET_TOKEN_EXPIRES_IN := 900,
    PASSWORD_RESET_OTP_EXPIRES_MINUTES := 10,
    NODE_ENV_production := false }

/-- `env0` in production mode. -/
def env0prod : Env := { env0 with NODE_ENV_production := true }

/-- A concrete active school-admin account. -/
def user1 : User :=
  { id := "u1", fullName := "Admin", email := "admin@school.edu",
    role := "SCHOOLADMIN", schoolId := some "s1", branchId := none,
    passwordHash := bcryptHash "Admin123!" 0, isActive := true,
    lastLoginAt := none }

/-- A refresh token issued to `user1` at time 0 with `jti` 11. -/
def refTok1 : Token := issueRefreshToken env0 user1 0 11

/-- The ledger row recorded for `refTok1`: unrevoked, expiring at 604800. -/
def entry1 : RefreshTokenEntry :=
  { id := 1, userId := "u1", tokenHash := hashToken refTok1,
    expiresAt := 604800, revokedAt := none, createdAt := 0 }

/-- Store with one active user holding one live refresh token. -/
def db1 : Db :=
  { users := [user1], refreshTokens := [entry1], passwordResetOtps := [],
    nextRefreshTokenId := 2, nextOtpId := 1 }

/-- `db1` with `entry1` already revoked (at time 1). -/
def db1revoked : Db :=
  { db1 with refreshTokens := [{ entry1 with revokedAt := some 1 }] }

/-- `db1` with `entry1`'s ledger expiry already in the past (5). -/
def db1expired : Db :=
  { db1 with refreshTokens := [{ entry1 with expiresAt := 5 }] }

/-- An unused OTP row for `user1`'s email: code 123456, hashed with salt 3. -/
def otpRec1 : PasswordResetOtp :=
  { id := 1, email := "admin@school.edu", otpHash := bcryptHash "123456" 3,
    expiresAt := 600000, usedAt := none, createdAt := 0 }

/-- `db1` with the unused OTP row `otpRec1`. -/
def db2 : Db := { db1 with passwordResetOtps := [otpRec1], nextOtpId := 2 }

/-- A password-reset token for `user1` issued at time 0 with `jti` 99. -/
def resetTok1 : Token := issuePasswordResetToken env0 user1 0 99

/-! ## Helper list lemmas -/

/-- `find?` over a `map` that does not touch the searched column. -/
theorem find?_map_of_hash_preserving (l : List RefreshTokenEntry)
    (f : RefreshTokenEntry → RefreshTokenEntry) (h : Token)
    (hf : ∀ e, (f e).tokenHash = e.tokenHash) :
    (l.map f).find? (fun e => e.tokenHash = h) =
      (l.find? (fun e => e.tokenHash = h)).map f := by
  induction l with
  | nil => rfl
  | cons a t ih =>
    by_cases hpred : a.tokenHash = h
    · simp [List.find?_cons, hf, hpred]
    · simp [List.find?_cons, hf, hpred, ih]

/-- With pairwise-distinct token hashes, `find?` by hash returns exactly the
member carrying that hash. -/
theorem find?_eq_of_uniqueHashes (l : List RefreshTokenEntry)
    (e : RefreshTokenEntry) (h : Token)
    (huniq : uniqueTokenHashes l) (hmem : e ∈ l) (hh : e.tokenHash = h) :
    l.find? (fun x => x.tokenHash = h) = some e := by
  induction l with
  | nil => cases hmem
  | cons a t ih =>
    rcases List.mem_cons.mp hmem with rfl | hmt
    · simp [List.find?_cons, hh]
    · have hne : a.tokenHash ≠ e.tokenHash :=
        (List.pairwise_cons.mp huniq).1 e hmt
      have hpa : ¬ (a.tokenHash = h) := by
        intro hcontra
        exact hne (hcontra.trans hh.symm)
      simp only [List.find?_cons]
      simp [hpa]
      exact ih ((List.pairwise_cons.mp huniq).2) hmt

/-! ## Claim theorems -/

/-- C5: For a caller with a tenant-bound role, `resolveSchoolId` fails with a
Forbidden (403) error when the caller's identity carries no school id; fails
with the Forbidden cross-tenant error when a requested school id differs from
the caller's own; and otherwise returns the caller's own school id.  For a
SUPERADMIN caller with a requested school id given, it returns that id. -/
theorem resolveSchoolId_contract (i : ReqUser) (input : Option String) (req : Bool)
    (hrole : i.role ≠ "SUPERADMIN") :
    (i.schoolId = none →
      resolveSchoolId (some i) input req =
        .err (forbidden "School context is missing for current user"))
    ∧ (∀ own requested, i.schoolId = some own → input = some requested → requested ≠ own →
      resolveSchoolId (some i) input req =
        .err (forbidden "Cannot access another school's data"))
    ∧ (∀ own, i.schoolId = some own → (input = none ∨ input = some own) →
      resolveSchoolId (some i) input req = .ok (some own))
    ∧ (∀ (su : ReqUser) (s : String), su.role = "SUPERADMIN" →
      resolveSchoolId (some su) (some s) req = .ok (some s)) := by
  refine ⟨?_, ?_, ?_, ?_⟩
  · intro h
    simp [resolveSchoolId, isSuperadmin, hrole, h]
  · intro own requested h1 h2 h3
    subst h2
    simp [resolveSchoolId, isSuperadmin, hrole, h1, h3]
  · intro own h1 h2
    rcases h2 with rfl | rfl <;> simp [resolveSchoolId, isSuperadmin, hrole, h1]
  · intro su s hsu
    simp [resolveSchoolId, isSuperadmin, hsu]

/-- Witness for C5: a SCHOOLADMIN of school s1 requesting school s2 is
rejected with the Forbidden cross-tenant error. -/
theorem resolveSchoolId_contract_witness :
    resolveSchoolId (some ⟨"SCHOOLADMIN", some "s1"⟩) (some "s2") false =
      .err (forbidden "Cannot access another school's data") :=
  (resolveSchoolId_contract ⟨"SCHOOLADMIN", some "s1"⟩ (some "s2") false
    (by decide)).2.1 "s1" "s2" rfl rfl (by decide)

/-- C6 counterexample: a SUPERADMIN caller who omits the school id when one
is required is rejected with HTTP status 400 (`badRequest`, code
SCHOOL_CONTEXT_REQUIRED), not with the Forbidden class (403) the claim
states. -/
theorem resolveSchoolId_superadmin_missing_context_is_400 :
    (resolveSchoolId (some ⟨"SUPERADMIN", none⟩) none true).errorStatus = some 400
    ∧ (resolveSchoolId (some ⟨"SUPERADMIN", none⟩) none true).errorStatus ≠ some 403 := by
  constructor
  · rfl
  · decide

/-- C6 amended: when a SUPERADMIN caller omits the requested school id and
the operation requires one, `resolveSchoolId` fails with the BadRequest
error class — HTTP status 400, code SCHOOL_CONTEXT_REQUIRED. -/
theorem resolveSchoolId_superadmin_requires_context (su : ReqUser)
    (hsu : su.role = "SUPERADMIN") :
    resolveSchoolId (some su) none true =
      .err (badRequest "schoolId is required for SUPERADMIN" "SCHOOL_CONTEXT_REQUIRED") := by
  simp [resolveSchoolId, isSuperadmin, hsu]

/-- Witness for the amended C6 at a concrete SUPERADMIN identity. -/
theorem resolveSchoolId_superadmin_requires_context_witness :
    resolveSchoolId (some ⟨"SUPERADMIN", none⟩) none true =
      .err (badRequest "schoolId is required for SUPERADMIN" "SCHOOL_CONTEXT_REQUIRED") :=
  resolveSchoolId_superadmin_requires_context ⟨"SUPERADMIN", none⟩ rfl

/-- C4: logout always returns success — for a missing, valid, revoked, or
unknown refresh token — and a second logout with the same token also returns
success while changing no ledger entry (the second call's post-state equals
the first call's post-state). -/
theorem logout_idempotent (db : Db) (now now2 : Int) (body : Option Token) :
    (logout db now body).fst = .success "Logged out"
    ∧ (logout (logout db now body).snd now2 body).fst = .success "Logged out"
    ∧ (logout (logout db now body).snd now2 body).snd = (logout db now body).snd := by
  cases body with
  | none => exact ⟨rfl, rfl, rfl⟩
  | some tk =>
    refine ⟨rfl, rfl, ?_⟩
    simp only [logout, List.map_map]
    congr 1
    apply List.map_congr_left
    intro e _
    by_cases hcond : e.tokenHash = hashToken tk ∧ e.revokedAt = none
    · simp [Function.comp, hcond]
    · simp only [Function.comp_apply]
      rw [if_neg hcond, if_neg hcond]

/-- C10: every refresh call either leaves the store unchanged or succeeds —
no rejection path (malformed body, bad signature, wrong token kind, ledger
row missing/revoked/expired, user missing or inactive) writes to the
refresh-token ledger. -/
theorem refresh_failure_keeps_ledger (env : Env) (db : Db) (now : Int)
    (j : Nat) (body : RefreshBody) :
    (refresh env db now j body).snd = db
    ∨ ∃ a r u, (refresh env db now j body).fst = .success a r u := by
  cases body with
  | missing => exact .inl rfl
  | garbage => exact .inl rfl
  | token tk =>
    rcases hv : jwtVerify tk env.JWT_REFRESH_SECRET now with e | d
    · left
      simp [refresh, hv]
    · simp only [refresh, hv]
      split
      · exact .inl rfl
      · split
        · exact .inl rfl
        · split
          · exact .inl rfl
          · split
            · exact .inl rfl
            · split
              · exact .inl rfl
              · split
                · exact .inl rfl
                · exact .inr ⟨_, _, _, rfl⟩

/-- Inversion of a successful `jwt.verify`: the decoded payload is the token
itself, the secret matched, and the token was unexpired. -/
theorem jwtVerify_ok_inv (t : Token) (s : Nat) (now : Int) (d : Token)
    (h : jwtVerify t s now = .ok d) :
    d = t ∧ t.secret = s ∧ now < t.exp := by
  unfold jwtVerify at h
  split at h
  · cases h
  · split at h
    · cases h
    · rename_i hsec hexp
      cases h
      exact ⟨rfl, by omega, by omega⟩

/-- `find?` in an appended list when the left part already yields a hit. -/
theorem find?_append_of_some {α : Type} (p : α → Bool) (l1 l2 : List α) (x : α)
    (h : l1.find? p = some x) : (l1 ++ l2).find? p = some x := by
  rw [List.find?_append, h]
  rfl

/-- Inversion of a successful refresh: the presented token verified under the
refresh secret with kind `refresh` and a string subject, the ledger row was
found unrevoked and unexpired, the owner is the returned active user, the
returned tokens are the freshly issued pair, and the post-state revokes the
old row and appends the row for the new token. -/
theorem refresh_success_inversion (env : Env) (db : Db) (now : Int) (j : Nat)
    (tk a r : Token) (u : User) (db' : Db)
    (h : refresh env db now j (.token tk) = (.success a r u, db')) :
    jwtVerify tk env.JWT_REFRESH_SECRET now = .ok tk
    ∧ tk.tokenType = "refresh" ∧ tk.sub.isSome
    ∧ ∃ stored,
        db.refreshTokens.find? (fun e => e.tokenHash = hashToken tk) = some stored
        ∧ stored.revokedAt = none ∧ ¬ (stored.expiresAt < now)
        ∧ db.users.find? (fun x => x.id = stored.userId) = some u ∧ u.isActive
        ∧ a = issueAccessToken env u now ∧ r = issueRefreshToken env u now j
        ∧ db' = { db with
            refreshTokens :=
              (db.refreshTokens.map (fun e =>
                if e.id = stored.id then { e with revokedAt := some now } else e))
              ++ [{ id := db.nextRefreshTokenId, userId := u.id,
                    tokenHash := hashToken r, expiresAt := tokenExpiryFromJwt r,
                    revokedAt := none, createdAt := now }],
            nextRefreshTokenId := db.nextRefreshTokenId + 1 } := by
  rcases hv : jwtVerify tk env.JWT_REFRESH_SECRET now with e | d
  · rw [refresh] at h
    simp only [hv] at h
    simp at h
  · obtain ⟨heq, -, -⟩ := jwtVerify_ok_inv tk env.JWT_REFRESH_SECRET now d hv
    rw [refresh] at h
    simp only [hv] at h
    rw [heq] at h
    refine ⟨by rw [heq], ?_⟩
    split at h
    · cases h
    · rename_i hpayload
      rw [not_not] at hpayload
      refine ⟨hpayload.1, hpayload.2, ?_⟩
      rcases hfind : db.refreshTokens.find? (fun e => e.tokenHash = hashToken tk)
        with _ | stored
      · simp only [hfind] at h
        simp at h
      · simp only [hfind] at h
        refine ⟨stored, hfind, ?_⟩
        split at h
        · cases h
        · rename_i hrev
          split at h
          · cases h
          · rename_i hexp
            rcases hu : db.users.find? (fun x => x.id = stored.userId) with _ | user
            · simp only [hu] at h
              simp at h
            · simp only [hu] at h
              split at h
              · cases h
              · rename_i hactive
                rw [not_not] at hactive
                rw [Prod.mk.injEq] at h
                obtain ⟨h1, h2⟩ := h
                rw [RefreshResult.success.injEq] at h1
                obtain ⟨ha, hr, huu⟩ := h1
                subst huu
                refine ⟨?_, hexp, hu, hactive, ha.symm, hr.symm, ?_⟩
                · cases hre : stored.revokedAt with
                  | none => rfl
                  | some t => simp [hre] at hrev
                · rw [← h2, ← hr]

/-- C1: after a successful refresh, the post-state carries the old ledger row
with its revocation timestamp set and a fresh unrevoked row for the newly
issued token (set in one transaction), and no refresh call on the post-state
presenting the original token can ever succeed again. -/
theorem refresh_rotation (env : Env) (db : Db) (now : Int) (j : Nat)
    (tOld a tNew : Token) (u : User) (db' : Db)
    (hsucc : refresh env db now j (.token tOld) = (.success a tNew u, db')) :
    (∃ e' ∈ db'.refreshTokens, e'.tokenHash = hashToken tOld ∧ e'.revokedAt = some now)
    ∧ (∃ e' ∈ db'.refreshTokens, e'.tokenHash = hashToken tNew ∧ e'.userId = u.id
        ∧ e'.revokedAt = none)
    ∧ refreshRejectsToken env db' tOld := by
  obtain ⟨hv, hkind, hsub, stored, hfind, hrev, hexp, hu, hactive, ha, hr, hdb'⟩ :=
    refresh_success_inversion env db now j tOld a tNew u db' hsucc
  have hhash : stored.tokenHash = hashToken tOld := by
    have := List.find?_some hfind
    exact of_decide_eq_true this
  have hmem : stored ∈ db.refreshTokens := List.mem_of_find?_eq_some hfind
  have hfind' : db'.refreshTokens.find? (fun e => e.tokenHash = hashToken tOld) =
      some { stored with revokedAt := some now } := by
    rw [hdb']
    apply find?_append_of_some
    rw [find?_map_of_hash_preserving]
    · rw [hfind]
      simp
    · intro e
      by_cases hid : e.id = stored.id
      · rw [if_pos hid]
      · rw [if_neg hid]
  refine ⟨?_, ?_, ?_⟩
  · refine ⟨{ stored with revokedAt := some now }, ?_, hhash, rfl⟩
    rw [hdb']
    apply List.mem_append_left
    have hstep : (fun e => if e.id = stored.id then { e with revokedAt := some now } else e)
        stored = { stored with revokedAt := some now } := by
      simp
    rw [← hstep]
    exact List.mem_map_of_mem _ hmem
  · refine ⟨{ id := db.nextRefreshTokenId, userId := u.id, tokenHash := hashToken tNew,
              expiresAt := tokenExpiryFromJwt tNew, revokedAt := none,
              createdAt := now }, ?_, rfl, rfl, rfl⟩
    rw [hdb']
    apply List.mem_append_right
    exact List.mem_singleton_self _
  · intro now2 j2 a2 r2 u2 hcontra
    rcases hv2 : jwtVerify tOld env.JWT_REFRESH_SECRET now2 with e2 | d2
    · rw [refresh] at hcontra
      simp only [hv2] at hcontra
      simp at hcontra
    · rw [refresh] at hcontra
      simp only [hv2] at hcontra
      split at hcontra
      · cases hcontra
      · simp only [hfind'] at hcontra
        split at hcontra
        · cases hcontra
        · rename_i hrevoked
          simp at hrevoked

/-- Witness for C1: after the successful refresh of `refTok1` against `db1`,
no refresh call on the resulting store can ever succeed with `refTok1`. -/
theorem refresh_rotation_witness :
    refreshRejectsToken env0 (refresh env0 db1 1 12 (.token refTok1)).snd refTok1 :=
  (refresh_rotation env0 db1 1 12 refTok1 (issueAccessToken env0 user1 1)
    (issueRefreshToken env0 user1 1 12) user1
    (refresh env0 db1 1 12 (.token refTok1)).snd (by rfl)).2.2

/-- If the ledger row found for a token's hash is revoked, no refresh call
with that token can succeed. -/
theorem refreshRejects_of_find_revoked (env : Env) (db : Db) (tk : Token)
    (e : RefreshTokenEntry)
    (hfind : db.refreshTokens.find? (fun x => x.tokenHash = hashToken tk) = some e)
    (hrev : e.revokedAt.isSome) :
    refreshRejectsToken env db tk := by
  intro now2 j2 a r u hcontra
  rcases hv : jwtVerify tk env.JWT_REFRESH_SECRET now2 with e2 | d2
  · rw [refresh] at hcontra
    simp only [hv] at hcontra
    simp at hcontra
  · rw [refresh] at hcontra
    simp only [hv] at hcontra
    split at hcontra
    · cases hcontra
    · simp only [hfind] at hcontra
      split at hcontra
      · cases hcontra
      · rename_i hnrev
        exact hnrev hrev

/-- Revoking all live rows of a user leaves every row of that user with a
revocation timestamp. -/
theorem allRevoked_of_revoke_map (l : List RefreshTokenEntry) (uid : String) (now : Int) :
    ∀ e' ∈ l.map (fun e =>
        if e.userId = uid ∧ e.revokedAt = none then { e with revokedAt := some now } else e),
      e'.userId = uid → e'.revokedAt.isSome := by
  intro e' hmem' huid
  obtain ⟨e, hmem, rfl⟩ := List.mem_map.mp hmem'
  by_cases hcond : e.userId = uid ∧ e.revokedAt = none
  · simp [hcond]
  · rw [if_neg hcond] at huid ⊢
    rcases hre : e.revokedAt with _ | t
    · exact absurd ⟨huid, hre⟩ hcond
    · simp

/-- Inversion of a successful reset-password: the reset token verified under
the password-reset secret with kind `password_reset` and a string subject,
the subject's account exists, is active, and carries the token's email, and
the post-state simultaneously rewrites the password hash, revokes every live
refresh-token row of the user, and uses up every unused OTP row of the
email. -/
theorem resetPassword_success_inversion (env : Env) (db : Db) (now : Int)
    (rt : Token) (newPassword msg : String) (salt : Nat) (db' : Db)
    (h : resetPassword env db now (.token rt) newPassword salt = (.success msg, db')) :
    ∃ subjectId user,
      rt.sub = some subjectId
      ∧ rt.tokenType = "password_reset"
      ∧ db.users.find? (fun x => x.id = subjectId) = some user
      ∧ user.isActive ∧ user.email = rt.email
      ∧ db' = { db with
          users := db.users.map (fun u =>
            if u.id = user.id then { u with passwordHash := bcryptHash newPassword salt }
            else u),
          refreshTokens := db.refreshTokens.map (fun e =>
            if e.userId = user.id ∧ e.revokedAt = none then { e with revokedAt := some now }
            else e),
          passwordResetOtps := db.passwordResetOtps.map (fun r =>
            if r.email = user.email ∧ r.usedAt = none then { r with usedAt := some now }
            else r) } := by
  rcases hv : jwtVerify rt (passwordResetSecret env) now with e | d
  · rw [resetPassword] at h
    simp only [hv] at h
    simp at h
  · obtain ⟨heq, -, -⟩ := jwtVerify_ok_inv rt (passwordResetSecret env) now d hv
    rw [resetPassword] at h
    simp only [hv] at h
    rw [heq] at h
    rcases hsub : rt.sub with _ | subjectId
    · simp only [hsub] at h
      simp at h
    · simp only [hsub] at h
      split at h
      · cases h
      · rename_i hkind
        rw [not_not] at hkind
        rcases hu : db.users.find? (fun x => x.id = subjectId) with _ | user
        · simp only [hu] at h
          simp at h
        · simp only [hu] at h
          split at h
          · cases h
          · rename_i hact
            rw [not_not] at hact
            rw [Prod.mk.injEq] at h
            obtain ⟨-, h2⟩ := h
            exact ⟨subjectId, user, rfl, hkind, hu, hact.1, hact.2, h2.symm⟩

/-- Inversion of a successful change-password: the subject's account exists
and is active, the current password matched, the new password differs, and
the post-state simultaneously rewrites the password hash and revokes every
live refresh-token row of the user. -/
theorem changePassword_success_inversion (db : Db) (now : Int) (uid : String)
    (currentPassword newPassword msg : String) (salt : Nat) (db' : Db)
    (h : changePassword db now (some uid) currentPassword newPassword salt =
      (.success msg, db')) :
    ∃ user,
      db.users.find? (fun x => x.id = uid) = some user
      ∧ user.isActive
      ∧ bcryptCompare currentPassword user.passwordHash
      ∧ ¬ bcryptCompare newPassword user.passwordHash
      ∧ db' = { db with
          users := db.users.map (fun u =>
            if u.id = user.id then { u with passwordHash := bcryptHash newPassword salt }
            else u),
          refreshTokens := db.refreshTokens.map (fun e =>
            if e.userId = user.id ∧ e.revokedAt = none then { e with revokedAt := some now }
            else e) } := by
  rw [changePassword] at h
  rcases hu : db.users.find? (fun x => x.id = uid) with _ | user
  · simp only [hu] at h
    simp at h
  · simp only [hu] at h
    split at h
    · cases h
    · rename_i hact
      rw [not_not] at hact
      split at h
      · cases h
      · rename_i hcur
        rw [not_not] at hcur
        split at h
        · cases h
        · rename_i hsame
          rw [Prod.mk.injEq] at h
          obtain ⟨-, h2⟩ := h
          exact ⟨user, hu, hact, hcur, hsame, h2.symm⟩

/-- After revoking all live rows of a user, any token whose (unique) ledger
row belonged to that user is rejected by every refresh call. -/
theorem revoke_map_rejects (env : Env) (db db' : Db) (user : User) (now : Int)
    (hre : db'.refreshTokens = db.refreshTokens.map (fun e =>
        if e.userId = user.id ∧ e.revokedAt = none then { e with revokedAt := some now }
        else e))
    (huniq : uniqueTokenHashes db.refreshTokens)
    (tk : Token) (e : RefreshTokenEntry) (hmem : e ∈ db.refreshTokens)
    (hh : e.tokenHash = hashToken tk) (huid : e.userId = user.id) :
    refreshRejectsToken env db' tk := by
  have hfind0 : db.refreshTokens.find? (fun x => x.tokenHash = hashToken tk) = some e :=
    find?_eq_of_uniqueHashes db.refreshTokens e (hashToken tk) huniq hmem hh
  have hpres : ∀ x : RefreshTokenEntry,
      ((fun y : RefreshTokenEntry =>
        if y.userId = user.id ∧ y.revokedAt = none then { y with revokedAt := some now }
        else y) x).tokenHash = x.tokenHash := by
    intro x
    by_cases hc : x.userId = user.id ∧ x.revokedAt = none
    · simp only [if_pos hc]
    · simp only [if_neg hc]
  have hfind' : db'.refreshTokens.find? (fun x => x.tokenHash = hashToken tk) =
      some (if e.userId = user.id ∧ e.revokedAt = none then
              { e with revokedAt := some now }
            else e) := by
    rw [hre, find?_map_of_hash_preserving _ _ _ hpres, hfind0]
    rfl
  apply refreshRejects_of_find_revoked env db' tk _ hfind'
  by_cases hc : e.revokedAt = none
  · rw [if_pos ⟨huid, hc⟩]
    rfl
  · rw [if_neg (fun hand => hc hand.2)]
    rcases hrc : e.revokedAt with _ | t
    · exact absurd hrc hc
    · rfl

/-- C2: after a successful reset-password (for the token's subject) or
change-password (for the authenticated subject), the same atomic post-state
carries the new password hash and a revocation timestamp on every
refresh-token row of that user, so — under the ledger's unique-hash
constraint — any refresh token whose ledger row belongs to that user is
rejected by every subsequent refresh call. -/
theorem passwordChange_revokes_all_sessions (env : Env) (db : Db) (now : Int)
    (newPassword : String) (salt : Nat) :
    (∀ (rt : Token) (uid msg : String) (db' : Db),
       rt.sub = some uid →
       resetPassword env db now (.token rt) newPassword salt = (.success msg, db') →
       allUserTokensRevoked db' uid
       ∧ (∃ u ∈ db'.users, u.id = uid ∧ u.passwordHash = bcryptHash newPassword salt)
       ∧ (uniqueTokenHashes db.refreshTokens →
          ∀ tk e, e ∈ db.refreshTokens → e.tokenHash = hashToken tk → e.userId = uid →
            refreshRejectsToken env db' tk))
    ∧ (∀ (uid currentPassword msg : String) (db' : Db),
       changePassword db now (some uid) currentPassword newPassword salt =
         (.success msg, db') →
       allUserTokensRevoked db' uid
       ∧ (∃ u ∈ db'.users, u.id = uid ∧ u.passwordHash = bcryptHash newPassword salt)
       ∧ (uniqueTokenHashes db.refreshTokens →
          ∀ tk e, e ∈ db.refreshTokens → e.tokenHash = hashToken tk → e.userId = uid →
            refreshRejectsToken env db' tk)) := by
  constructor
  · intro rt uid msg db' hsubUid hrun
    obtain ⟨subjectId, user, hsub, hkind, hu, hact, hemail, hdb'⟩ :=
      resetPassword_success_inversion env db now rt newPassword msg salt db' hrun
    have hids : subjectId = uid := by
      rw [hsubUid] at hsub
      exact (Option.some.inj hsub).symm
    have huid : user.id = uid := by
      have hds := List.find?_some hu
      have : user.id = subjectId := of_decide_eq_true hds
      rw [this, hids]
    refine ⟨?_, ?_, ?_⟩
    · rw [hdb']
      intro e' hmem' he'
      exact allRevoked_of_revoke_map db.refreshTokens user.id now e' hmem'
        (he'.trans huid.symm)
    · refine ⟨{ user with passwordHash := bcryptHash newPassword salt }, ?_, huid, rfl⟩
      have hmemu : user ∈ db.users := List.mem_of_find?_eq_some hu
      have hstep : (fun u => if u.id = user.id then
          { u with passwordHash := bcryptHash newPassword salt } else u) user =
          { user with passwordHash := bcryptHash newPassword salt } := by
        simp
      rw [hdb', ← hstep]
      exact List.mem_map_of_mem _ hmemu
    · intro huniq tk e hmem hh heuid
      exact revoke_map_rejects env db db' user now (by rw [hdb']) huniq tk e hmem hh
        (heuid.trans huid.symm)
  · intro uid currentPassword msg db' hrun
    obtain ⟨user, hu, hact, hcur, hsame, hdb'⟩ :=
      changePassword_success_inversion db now uid currentPassword newPassword msg salt
        db' hrun
    have huid : user.id = uid := by
      have hds := List.find?_some hu
      exact of_decide_eq_true hds
    refine ⟨?_, ?_, ?_⟩
    · rw [hdb']
      intro e' hmem' he'
      exact allRevoked_of_revoke_map db.refreshTokens user.id now e' hmem'
        (he'.trans huid.symm)
    · refine ⟨{ user with passwordHash := bcryptHash newPassword salt }, ?_, huid, rfl⟩
      have hmemu : user ∈ db.users := List.mem_of_find?_eq_some hu
      have hstep : (fun u => if u.id = user.id then
          { u with passwordHash := bcryptHash newPassword salt } else u) user =
          { user with passwordHash := bcryptHash newPassword salt } := by
        simp
      rw [hdb', ← hstep]
      exact List.mem_map_of_mem _ hmemu
    · intro huniq tk e hmem hh heuid
      exact revoke_map_rejects env db db' user now (by rw [hdb']) huniq tk e hmem hh
        (heuid.trans huid.symm)

/-- Witness for C2: concretely resetting `user1`'s password on `db1` makes
the live refresh token `refTok1` permanently unusable. -/
theorem passwordChange_revokes_all_sessions_witness :
    resetTok1.sub = some "u1"
    ∧ uniqueTokenHashes db1.refreshTokens
    ∧ refreshRejectsToken env0
        (resetPassword env0 db1 0 (.token resetTok1) "NewPass1!" 7).snd refTok1 :=
  ⟨rfl, by decide,
   ((passwordChange_revokes_all_sessions env0 db1 0 "NewPass1!" 7).1 resetTok1 "u1"
      "Password reset successful. Please login again."
      (resetPassword env0 db1 0 (.token resetTok1) "NewPass1!" 7).snd rfl (by rfl)).2.2
     (by decide) refTok1 entry1 (by decide) rfl rfl⟩

/-- The latest-row fold yields an element of the traversed list (or the
starting accumulator). -/
theorem latest_fold_mem (l : List PasswordResetOtp) (acc : Option PasswordResetOtp)
    (r : PasswordResetOtp)
    (h : l.foldl (fun best x =>
        match best with
        | none => some x
        | some b => if x.createdAt > b.createdAt then some x else some b) acc = some r) :
    r ∈ l ∨ acc = some r := by
  induction l generalizing acc with
  | nil => exact .inr h
  | cons a t ih =>
    rw [List.foldl_cons] at h
    rcases ih _ h with hmem | hacc
    · exact .inl (List.mem_cons_of_mem a hmem)
    · rcases acc with _ | b
      · have hacc' : some a = some r := hacc
        rcases Option.some.inj hacc' with rfl
        exact .inl (List.mem_cons_self a t)
      · have hacc' : (if a.createdAt > b.createdAt then some a else some b) = some r := hacc
        by_cases hgt : a.createdAt > b.createdAt
        · rw [if_pos hgt] at hacc'
          rcases Option.some.inj hacc' with rfl
          exact .inl (List.mem_cons_self a t)
        · rw [if_neg hgt] at hacc'
          exact .inr hacc'

/-- `findFirst({email, usedAt: null}, orderBy createdAt desc)` returns an
unused row of the list carrying the searched email. -/
theorem findLatestUnusedOtp_spec (otps : List PasswordResetOtp) (em : String)
    (r : PasswordResetOtp) (h : findLatestUnusedOtp otps em = some r) :
    r ∈ otps ∧ r.email = em ∧ r.usedAt = none := by
  unfold findLatestUnusedOtp at h
  rcases latest_fold_mem _ _ _ h with hmem | habs
  · have := List.mem_filter.mp hmem
    refine ⟨this.1, ?_, ?_⟩
    · exact (of_decide_eq_true this.2).1
    · exact (of_decide_eq_true this.2).2
  · cases habs

/-- Inversion of a successful verify-otp: the most recent unused OTP row for
the email existed, was unexpired and bcrypt-matched, the account exists and
is active, and the post-state marks exactly that row used. -/
theorem verifyOtp_success_inversion (env : Env) (db : Db) (now : Int)
    (email otp : String) (j : Nat) (rt : Token) (exp : Int) (db' : Db)
    (h : verifyOtp env db now email otp j = (.success rt exp, db')) :
    ∃ record user,
      findLatestUnusedOtp db.passwordResetOtps (toLowerCase email) = some record
      ∧ ¬ (record.expiresAt ≤ now) ∧ bcryptCompare otp record.otpHash
      ∧ db.users.find? (fun u => u.email = (toLowerCase email)) = some user
      ∧ user.isActive
      ∧ db' = { db with passwordResetOtps := db.passwordResetOtps.map (fun r =>
          if r.id = record.id then { r with usedAt := some now } else r) } := by
  rw [verifyOtp] at h
  rcases hrec : findLatestUnusedOtp db.passwordResetOtps (toLowerCase email) with _ | record
  · simp only [hrec] at h
    simp at h
  · simp only [hrec] at h
    split at h
    · cases h
    · rename_i hexp
      split at h
      · cases h
      · rename_i hcmp
        rw [not_not] at hcmp
        rcases hu : db.users.find? (fun u => u.email = (toLowerCase email)) with _ | user
        · simp only [hu] at h
          simp at h
        · simp only [hu] at h
          split at h
          · cases h
          · rename_i hact
            rw [not_not] at hact
            rw [Prod.mk.injEq] at h
            obtain ⟨-, h2⟩ := h
            exact ⟨record, user, rfl, hexp, hcmp, hu, hact, h2.symm⟩

/-- C3: under the at-most-one-unused-OTP invariant, a successful verify-otp
uses up the matched row, so any second verify-otp for the email — with the
same or any other code — fails with the generic invalid-OTP error; and a
forgot-password call for an existing active account marks every previously
unused OTP row of that email used in the same transaction that creates the
new row, re-establishing the invariant. -/
theorem singleUse_otp (env : Env) (db : Db) (now : Int) (email otp : String) (j : Nat) :
    (∀ rt exp db', atMostOneUnused db.passwordResetOtps (toLowerCase email) →
       verifyOtp env db now email otp j = (.success rt exp, db') →
       ∀ otp2 now2 j2,
         (verifyOtp env db' now2 email otp2 j2).fst = .invalidOtp invalidOtpBody)
    ∧ (∀ salt m, hasActiveUserByEmail db (toLowerCase email) = true →
       (∀ r ∈ db.passwordResetOtps, r.email = (toLowerCase email) → r.usedAt = none →
          ∃ r' ∈ (forgotPassword env db now email otp salt m).snd.passwordResetOtps,
            r'.id = r.id ∧ r'.usedAt = some now)
       ∧ (∃ rNew ∈ (forgotPassword env db now email otp salt m).snd.passwordResetOtps,
            rNew.email = (toLowerCase email) ∧ rNew.usedAt = none
            ∧ rNew.otpHash = bcryptHash otp salt)
       ∧ atMostOneUnused
           (forgotPassword env db now email otp salt m).snd.passwordResetOtps
           (toLowerCase email)) := by
  constructor
  · intro rt exp db' hinv hrun otp2 now2 j2
    obtain ⟨record, user, hrec, hexp, hcmp, hu, hact, hdb'⟩ :=
      verifyOtp_success_inversion env db now email otp j rt exp db' hrun
    obtain ⟨hrmem, hremail, hrunused⟩ :=
      findLatestUnusedOtp_spec db.passwordResetOtps (toLowerCase email) record hrec
    have hfilter : db'.passwordResetOtps.filter
        (fun r => r.email = (toLowerCase email) ∧ r.usedAt = none) = [] := by
      rw [hdb']
      rw [List.filter_eq_nil_iff]
      intro x hx
      obtain ⟨r0, hr0mem, rfl⟩ := List.mem_map.mp hx
      by_cases hid : r0.id = record.id
      · rw [if_pos hid]
        simp
      · rw [if_neg hid]
        intro hcontra
        have hp := of_decide_eq_true hcontra
        exact hid (congrArg PasswordResetOtp.id
          (hinv r0 hr0mem record hrmem hp.1 hremail hp.2 hrunused))
    have hnone : findLatestUnusedOtp db'.passwordResetOtps (toLowerCase email) = none := by
      unfold findLatestUnusedOtp
      rw [hfilter]
      rfl
    rw [verifyOtp]
    simp only [hnone]
  · intro salt m hactive
    have hcore : ∃ user, db.users.find? (fun u => u.email = (toLowerCase email)) = some user
        ∧ user.isActive = true := by
      unfold hasActiveUserByEmail at hactive
      rcases hfu : db.users.find? (fun u => u.email = (toLowerCase email)) with _ | user
      · simp only [hfu] at hactive
        cases hactive
      · simp only [hfu] at hactive
        exact ⟨user, hfu, hactive⟩
    obtain ⟨user, hfu, hua⟩ := hcore
    have hsnd : (forgotPassword env db now email otp salt m).snd =
        { db with
          passwordResetOtps :=
            (db.passwordResetOtps.map (fun r =>
              if r.email = (toLowerCase email) ∧ r.usedAt = none then { r with usedAt := some now }
              else r))
            ++ [{ id := db.nextOtpId, email := (toLowerCase email), otpHash := bcryptHash otp salt,
                  expiresAt := now + env.PASSWORD_RESET_OTP_EXPIRES_MINUTES * 60 * 1000,
                  usedAt := none, createdAt := now }],
          nextOtpId := db.nextOtpId + 1 } := by
      rw [forgotPassword]
      simp only [hfu]
      rw [if_neg (not_not_intro hua)]
      split
      · rfl
      · rfl
    refine ⟨?_, ?_, ?_⟩
    · intro r hrmem hremail hrunused
      refine ⟨{ r with usedAt := some now }, ?_, rfl, rfl⟩
      rw [hsnd]
      apply List.mem_append_left
      have hstep : (fun x : PasswordResetOtp =>
          if x.email = (toLowerCase email) ∧ x.usedAt = none then { x with usedAt := some now }
          else x) r = { r with usedAt := some now } := by
        exact if_pos ⟨hremail, hrunused⟩
      rw [← hstep]
      exact List.mem_map_of_mem _ hrmem
    · refine ⟨{ id := db.nextOtpId, email := (toLowerCase email),
                otpHash := bcryptHash otp salt,
                expiresAt := now + env.PASSWORD_RESET_OTP_EXPIRES_MINUTES * 60 * 1000,
                usedAt := none, createdAt := now }, ?_, rfl, rfl, rfl⟩
      rw [hsnd]
      apply List.mem_append_right
      exact List.mem_singleton_self _
    · rw [hsnd]
      intro r1 hr1 r2 hr2 he1 he2 hu1 hu2
      have honly : ∀ x, x ∈ (db.passwordResetOtps.map (fun r =>
            if r.email = (toLowerCase email) ∧ r.usedAt = none then { r with usedAt := some now }
            else r))
            ++ [{ id := db.nextOtpId, email := (toLowerCase email),
                  otpHash := bcryptHash otp salt,
                  expiresAt := now + env.PASSWORD_RESET_OTP_EXPIRES_MINUTES * 60 * 1000,
                  usedAt := none, createdAt := now }] →
          x.email = (toLowerCase email) → x.usedAt = none →
          x = { id := db.nextOtpId, email := (toLowerCase email),
                otpHash := bcryptHash otp salt,
                expiresAt := now + env.PASSWORD_RESET_OTP_EXPIRES_MINUTES * 60 * 1000,
                usedAt := none, createdAt := now } := by
        intro x hx hxe hxu
        rcases List.mem_append.mp hx with hleft | hright
        · obtain ⟨r0, hr0mem, rfl⟩ := List.mem_map.mp hleft
          by_cases hc : r0.email = (toLowerCase email) ∧ r0.usedAt = none
          · rw [if_pos hc] at hxu
            cases hxu
          · rw [if_neg hc] at hxe hxu
            exact absurd ⟨hxe, hxu⟩ hc
        · rcases List.mem_singleton.mp hright with rfl
          rfl
      rw [honly r1 hr1 he1 hu1, honly r2 hr2 he2 hu2]

/-- Witness for C3: on `db2` (one unused OTP for `user1`'s email), a
successful verify-otp followed by a second verify-otp with the same code
fails with the generic invalid-OTP error. -/
theorem singleUse_otp_witness :
    atMostOneUnused db2.passwordResetOtps (toLowerCase "admin@school.edu")
    ∧ (verifyOtp env0 (verifyOtp env0 db2 0 "admin@school.edu" "123456" 50).snd 1
        "admin@school.edu" "123456" 51).fst = .invalidOtp invalidOtpBody :=
  ⟨by decide,
   (singleUse_otp env0 db2 0 "admin@school.edu" "123456" 50).1
     (issuePasswordResetToken env0 user1 0 50) 900
     (verifyOtp env0 db2 0 "admin@school.edu" "123456" 50).snd
     (by decide) (by rfl) "123456" 1 51⟩

/-- C7 counterexample: in production with a configured mailer, the
forgot-password responses for an existing active account and for an unknown
account have identical `debugOtp` fields (both absent), yet the bodies still
differ — the existing account's response carries `otpExpiresAt`, the unknown
account's does not.  So more than the `debugOtp` content distinguishes the
two responses. -/
theorem forgotPassword_enumeration_counterexample :
    (forgotPassword env0prod db1 0 "admin@school.edu" "654321" 4 true).fst =
      .response ⟨200, true,
        "If your account exists, a verification code has been generated",
        none, some 600000⟩
    ∧ (forgotPassword env0prod db1 0 "ghost@school.edu" "654321" 4 true).fst =
      .response ⟨200, true,
        "If your account exists, a verification code has been generated",
        none, none⟩
    ∧ (⟨200, true, "If your account exists, a verification code has been generated",
         none, some 600000⟩ : ForgotPasswordResponse).debugOtp =
      (⟨200, true, "If your account exists, a verification code has been generated",
         none, none⟩ : ForgotPasswordResponse).debugOtp
    ∧ (⟨200, true, "If your account exists, a verification code has been generated",
         none, some 600000⟩ : ForgotPasswordResponse) ≠
      ⟨200, true, "If your account exists, a verification code has been generated",
         none, none⟩ := by
  refine ⟨rfl, rfl, rfl, ?_⟩
  decide

/-- C7 amended: every forgot-password response carries status 200,
`success: true` and the same generic message, and for an unknown or inactive
account nothing is written and neither `debugOtp` nor `otpExpiresAt` is
present; but for an existing active account (when the mailer is configured
or the environment is not production) the response additionally carries
`otpExpiresAt` — and, outside production, `debugOtp` — so the two body
shapes differ beyond the `debugOtp` content. -/
theorem forgotPassword_no_enumeration_amended (env : Env) (db : Db) (now : Int)
    (email otp : String) (salt : Nat) (m : Bool) :
    (∀ r db', forgotPassword env db now email otp salt m = (.response r, db') →
       r.status = 200 ∧ r.success = true
       ∧ r.message = "If your account exists, a verification code has been generated")
    ∧ (hasActiveUserByEmail db (toLowerCase email) = false →
       forgotPassword env db now email otp salt m =
         (.response ⟨200, true,
            "If your account exists, a verification code has been generated",
            none, none⟩, db))
    ∧ (hasActiveUserByEmail db (toLowerCase email) = true →
       (m = true ∨ env.NODE_ENV_production = false) →
       ∃ db', forgotPassword env db now email otp salt m =
         (.response ⟨200, true,
            "If your account exists, a verification code has been generated",
            (if env.NODE_ENV_production then none else some otp),
            some (now + env.PASSWORD_RESET_OTP_EXPIRES_MINUTES * 60 * 1000)⟩, db')) := by
  refine ⟨?_, ?_, ?_⟩
  · intro r db' hrun
    rw [forgotPassword] at hrun
    rcases hfu : db.users.find? (fun u => u.email = toLowerCase email) with _ | user
    · simp only [hfu] at hrun
      rw [Prod.mk.injEq] at hrun
      obtain ⟨h1, -⟩ := hrun
      rcases ForgotPasswordResult.response.inj h1 with rfl
      exact ⟨rfl, rfl, rfl⟩
    · simp only [hfu] at hrun
      split at hrun
      · rw [Prod.mk.injEq] at hrun
        obtain ⟨h1, -⟩ := hrun
        rcases ForgotPasswordResult.response.inj h1 with rfl
        exact ⟨rfl, rfl, rfl⟩
      · split at hrun
        · rw [Prod.mk.injEq] at hrun
          exact ForgotPasswordResult.noConfusion hrun.1
        · rw [Prod.mk.injEq] at hrun
          obtain ⟨h1, -⟩ := hrun
          rcases ForgotPasswordResult.response.inj h1 with rfl
          exact ⟨rfl, rfl, rfl⟩
  · intro hmiss
    unfold hasActiveUserByEmail at hmiss
    rcases hfu : db.users.find? (fun u => u.email = toLowerCase email) with _ | user
    · rw [forgotPassword]
      simp only [hfu]
    · simp only [hfu] at hmiss
      rw [forgotPassword]
      simp only [hfu]
      rw [if_pos (fun hcontra => by rw [hmiss] at hcontra; cases hcontra)]
  · intro hhit hmail
    have hcore : ∃ user,
        db.users.find? (fun u => u.email = toLowerCase email) = some user
        ∧ user.isActive = true := by
      unfold hasActiveUserByEmail at hhit
      rcases hfu : db.users.find? (fun u => u.email = toLowerCase email) with _ | user
      · simp only [hfu] at hhit
        cases hhit
      · simp only [hfu] at hhit
        exact ⟨user, hfu, hhit⟩
    obtain ⟨user, hfu, hua⟩ := hcore
    refine ⟨{ db with
              passwordResetOtps :=
                (db.passwordResetOtps.map (fun r =>
                  if r.email = toLowerCase email ∧ r.usedAt = none then
                    { r with usedAt := some now }
                  else r))
                ++ [{ id := db.nextOtpId, email := toLowerCase email,
                      otpHash := bcryptHash otp salt,
                      expiresAt := now + env.PASSWORD_RESET_OTP_EXPIRES_MINUTES * 60 * 1000,
                      usedAt := none, createdAt := now }],
              nextOtpId := db.nextOtpId + 1 }, ?_⟩
    rw [forgotPassword]
    simp only [hfu]
    rw [if_neg (not_not_intro hua)]
    rw [if_neg ?hgate]
    case hgate =>
      intro hand
      rcases hmail with rfl | hp
      · exact hand.1 rfl
      · rw [hp] at hand
        cases hand.2

/-- Witness for the amended C7: against `db1`, a forgot-password call for the
unknown email returns the bare generic response and writes nothing. -/
theorem forgotPassword_no_enumeration_amended_witness :
    hasActiveUserByEmail db1 (toLowerCase "ghost@school.edu") = false
    ∧ forgotPassword env0prod db1 0 "ghost@school.edu" "654321" 4 true =
        (.response ⟨200, true,
          "If your account exists, a verification code has been generated",
          none, none⟩, db1) :=
  ⟨by decide,
   (forgotPassword_no_enumeration_amended env0prod db1 0 "ghost@school.edu" "654321"
      4 true).2.1 (by decide)⟩

/-- C8 counterexample: two ledger-level refresh failures — a revoked row and
an expired row — are reported with different messages, so the rejection does
reveal which check failed. -/
theorem refresh_error_messages_counterexample :
    (refresh env0 db1revoked 10 12 (.token refTok1)).fst =
      .failure (unauthorizedBody "Refresh token is revoked or invalid")
    ∧ (refresh env0 db1expired 10 12 (.token refTok1)).fst =
      .failure (unauthorizedBody "Refresh token is expired")
    ∧ unauthorizedBody "Refresh token is revoked or invalid" ≠
      unauthorizedBody "Refresh token is expired" := by
  refine ⟨rfl, rfl, ?_⟩
  decide

/-- C8 amended: every ledger-level refresh failure is a 401 response with the
same code UNAUTHORIZED, but the messages separate three groups — row missing
or revoked, row expired, owning user missing or inactive. -/
theorem refresh_ledger_failures_amended (env : Env) (db : Db) (now : Int)
    (j : Nat) (tk : Token)
    (hver : jwtVerify tk env.JWT_REFRESH_SECRET now = .ok tk)
    (hkind : tk.tokenType = "refresh") (hsub : tk.sub.isSome) :
    (∀ e', (refresh env db now j (.token tk)).fst = .failure e' →
       e'.status = 401 ∧ e'.code = "UNAUTHORIZED")
    ∧ (db.refreshTokens.find? (fun e => e.tokenHash = hashToken tk) = none →
       (refresh env db now j (.token tk)).fst =
         .failure (unauthorizedBody "Refresh token is revoked or invalid"))
    ∧ (∀ e, db.refreshTokens.find? (fun x => x.tokenHash = hashToken tk) = some e →
       e.revokedAt.isSome →
       (refresh env db now j (.token tk)).fst =
         .failure (unauthorizedBody "Refresh token is revoked or invalid"))
    ∧ (∀ e, db.refreshTokens.find? (fun x => x.tokenHash = hashToken tk) = some e →
       e.revokedAt = none → e.expiresAt < now →
       (refresh env db now j (.token tk)).fst =
         .failure (unauthorizedBody "Refresh token is expired"))
    ∧ (∀ e, db.refreshTokens.find? (fun x => x.tokenHash = hashToken tk) = some e →
       e.revokedAt = none → ¬ (e.expiresAt < now) →
       (db.users.find? (fun u => u.id = e.userId) = none
        ∨ ∃ u, db.users.find? (fun u => u.id = e.userId) = some u ∧ u.isActive = false) →
       (refresh env db now j (.token tk)).fst =
         .failure (unauthorizedBody "User is inactive")) := by
  have hpayload : ¬ ¬ (tk.tokenType = "refresh" ∧ tk.sub.isSome = true) :=
    not_not_intro ⟨hkind, hsub⟩
  refine ⟨?_, ?_, ?_, ?_, ?_⟩
  · intro e' hrun
    rw [refresh] at hrun
    simp only [hver] at hrun
    rw [if_neg hpayload] at hrun
    rcases hfind : db.refreshTokens.find? (fun x => x.tokenHash = hashToken tk)
      with _ | stored
    · simp only [hfind] at hrun
      rcases RefreshResult.failure.inj hrun with rfl
      exact ⟨rfl, rfl⟩
    · simp only [hfind] at hrun
      split at hrun
      · rcases RefreshResult.failure.inj hrun with rfl
        exact ⟨rfl, rfl⟩
      · split at hrun
        · rcases RefreshResult.failure.inj hrun with rfl
          exact ⟨rfl, rfl⟩
        · rcases hu : db.users.find? (fun u => u.id = stored.userId) with _ | user
          · simp only [hu] at hrun
            rcases RefreshResult.failure.inj hrun with rfl
            exact ⟨rfl, rfl⟩
          · simp only [hu] at hrun
            split at hrun
            · rcases RefreshResult.failure.inj hrun with rfl
              exact ⟨rfl, rfl⟩
            · cases hrun
  · intro hfind
    rw [refresh]
    simp only [hver]
    rw [if_neg hpayload]
    simp only [hfind]
  · intro e hfind hrev
    rw [refresh]
    simp only [hver]
    rw [if_neg hpayload]
    simp only [hfind]
    rw [if_pos hrev]
  · intro e hfind hrev hexp
    rw [refresh]
    simp only [hver]
    rw [if_neg hpayload]
    simp only [hfind]
    rw [if_neg (by rw [hrev]; exact Bool.false_ne_true ∘ id)]
    rw [if_pos hexp]
  · intro e hfind hrev hexp huser
    rw [refresh]
    simp only [hver]
    rw [if_neg hpayload]
    simp only [hfind]
    rw [if_neg (by rw [hrev]; exact Bool.false_ne_true ∘ id)]
    rw [if_neg hexp]
    rcases huser with hnone | ⟨u, hu, hinactive⟩
    · simp only [hnone]
    · simp only [hu]
      rw [if_pos (by rw [hinactive]; exact Bool.false_ne_true ∘ id)]

/-- Witness for the amended C8: a revoked row concretely yields the 401
revoked-or-invalid message. -/
theorem refresh_ledger_failures_amended_witness :
    jwtVerify refTok1 env0.JWT_REFRESH_SECRET 10 = .ok refTok1
    ∧ (refresh env0 db1revoked 10 12 (.token refTok1)).fst =
        .failure (unauthorizedBody "Refresh token is revoked or invalid") :=
  ⟨rfl,
   (refresh_ledger_failures_amended env0 db1revoked 10 12 refTok1 rfl rfl rfl).2.2.1
     { entry1 with revokedAt := some 1 } (by rfl) (by rfl)⟩

/-- C9: when a presented token fails access-secret verification, the
authenticator first probes it against the refresh secret — a verifiable
refresh-kind token is rejected with the dedicated refresh-used-as-access
message; otherwise an expiry failure of the access-secret attempt is
reported with the distinguishable TOKEN_EXPIRED code; any other failure gets
the generic invalid-token response. -/
theorem authMiddleware_fallback_order (env : Env) (t : Token) (now : Int)
    (err : JwtError)
    (hfail : jwtVerify t env.JWT_ACCESS_SECRET now = .error err) :
    ((∃ rp, jwtVerify t env.JWT_REFRESH_SECRET now = .ok rp ∧ rp.tokenType = "refresh") →
       authMiddleware env (some t) now =
         .failure (unauthorizedBody
           "Refresh token cannot be used here. Send accessToken in Authorization header."))
    ∧ (¬ (∃ rp, jwtVerify t env.JWT_REFRESH_SECRET now = .ok rp
            ∧ rp.tokenType = "refresh") →
       err = .tokenExpired →
       authMiddleware env (some t) now =
         .failure ⟨401, "TOKEN_EXPIRED", "Access token expired"⟩)
    ∧ (¬ (∃ rp, jwtVerify t env.JWT_REFRESH_SECRET now = .ok rp
            ∧ rp.tokenType = "refresh") →
       err = .invalidSignature →
       authMiddleware env (some t) now =
         .failure (unauthorizedBody "Invalid or expired access token")) := by
  refine ⟨?_, ?_, ?_⟩
  · rintro ⟨rp, hok, hrk⟩
    rw [authMiddleware]
    simp only [hfail]
    simp only [hok]
    rw [if_pos hrk]
  · intro hnot herr
    subst herr
    rw [authMiddleware]
    simp only [hfail]
    rcases hr : jwtVerify t env.JWT_REFRESH_SECRET now with e2 | rp
    · simp only [hr]
      simp
    · simp only [hr]
      rw [if_neg (fun hrk => hnot ⟨rp, hr, hrk⟩)]
      simp
  · intro hnot herr
    subst herr
    rw [authMiddleware]
    simp only [hfail]
    rcases hr : jwtVerify t env.JWT_REFRESH_SECRET now with e2 | rp
    · simp only [hr]
      simp
    · simp only [hr]
      rw [if_neg (fun hrk => hnot ⟨rp, hr, hrk⟩)]
      simp

/-- Witness for C9: a password-reset token (signed with the refresh-secret
fallback but of kind `password_reset`) fails access verification with a bad
signature, is not a refresh-kind token, and so receives the generic
invalid-token response. -/
theorem authMiddleware_fallback_order_witness :
    jwtVerify resetTok1 env0.JWT_ACCESS_SECRET 0 = .error .invalidSignature
    ∧ authMiddleware env0 (some resetTok1) 0 =
        .failure (unauthorizedBody "Invalid or expired access token") :=
  ⟨rfl,
   (authMiddleware_fallback_order env0 resetTok1 0 .invalidSignature rfl).2.2
     (fun ⟨rp, hok, hrk⟩ => by
        have hrp : resetTok1 = rp := Except.ok.inj hok
        rw [← hrp] at hrk
        exact absurd hrk (by decide))
     rfl⟩

end SchoolBackend
